import Mathlib

/-!
# Verification of the PipBoy game-session server (src/pipboy-server.js)

A shallow embedding of the request handlers of `pipboy-server.js`.  The SQLite
tables become lists of rows; each SQL statement becomes the corresponding list
operation (an `UPDATE ... WHERE c` maps the rows matching `c`, a `DELETE ...
WHERE c` filters them out, an `INPUT ... ON CONFLICT DO UPDATE` upserts).
Each Express handler becomes a function from the database and the request
inputs to a triple of the JSON reply, the new database, and the list of
WebSocket broadcast events it emits.  Optional JSON body fields are `Option`
values, so that the JavaScript destructuring default `quantity = 1` (which
fires only for a missing/undefined field, not for `0`) is `Option.getD 1`,
and the falsy test `!field` on a string field is `field.getD "" = ""`.
Integers stored in SQLite columns are `Int`.  bcrypt hashing/comparison and
JWT signing are outside the core; the login handler takes them as opaque
function parameters and the token is modelled by its signed claims.
-/

namespace PipBoy

/-- A row of the `users` table.  `created_at` is never consulted by any
handler and is omitted. -/
structure User where
  id : Nat
  username : String
  passwordHash : String
  isAdmin : Bool
  deriving Repr, DecidableEq

/-- A row of the `items` table (catalog).  `created_at` is never consulted
and is omitted. -/
structure Item where
  id : Nat
  itemKey : String
  name : String
  description : String
  imageUrl : String
  deriving Repr, DecidableEq

/-- A row of the `user_inventory` table.  The surrogate `id` column is never
consulted by any handler and is omitted; the handlers address rows by the
`(user_id, item_key)` pair, which the schema declares UNIQUE. -/
structure InvLine where
  userId : Nat
  itemKey : String
  quantity : Int
  deriving Repr, DecidableEq

/-- A row of the `party_storage` table.  The surrogate `id` column is never
consulted and is omitted; `item_key` is declared UNIQUE. -/
structure StorLine where
  itemKey : String
  quantity : Int
  deriving Repr, DecidableEq

/-- A row of the `quests` table.  `created_at` is never consulted by the
mutating handlers and is omitted. -/
structure Quest where
  id : Nat
  questKey : String
  name : String
  description : String
  imageUrl : String
  isActive : Bool
  deriving Repr, DecidableEq

/-- The persistent state: the five tables of `pipboy.db`. -/
structure DB where
  users : List User
  items : List Item
  userInventory : List InvLine
  partyStorage : List StorLine
  quests : List Quest
  deriving Repr, DecidableEq

/-- The empty database. -/
def emptyDB : DB := ⟨[], [], [], [], []⟩

/-- The claims carried by a signed JWT (`jwt.sign({userId, username,
isAdmin}, ...)`); also the shape of the `user` object in the login reply. -/
structure TokenClaims where
  userId : Nat
  username : String
  isAdmin : Bool
  deriving Repr, DecidableEq

/-- A JSON reply of a handler: either one of the success payload shapes the
handlers build, or `res.status(code).json({error})`. -/
inductive Reply where
  | okMsg (message : String)
  | okItem (item : Item)
  | okQuest (quest : Quest)
  | okLogin (token : TokenClaims) (user : TokenClaims)
  | err (status : Nat) (error : String)
  deriving Repr, DecidableEq

/-- A reply is a success when it is not an error status. -/
def Reply.isOk : Reply → Bool
  | .err _ _ => false
  | _ => true

/-- A WebSocket broadcast event, as passed to `broadcast({type, ...})`. -/
inductive Event where
  | itemAdded (item : Item)
  | itemDeleted (itemKey : String)
  | questAdded (quest : Quest)
  | questDeleted (questKey : String)
  | partyStorageUpdated
  deriving Repr, DecidableEq

/-- The `type` string of a broadcast event, exactly as the source writes it. -/
def Event.type : Event → String
  | .itemAdded _ => "ITEM_ADDED"
  | .itemDeleted _ => "ITEM_DELETED"
  | .questAdded _ => "QUEST_ADDED"
  | .questDeleted _ => "QUEST_DELETED"
  | .partyStorageUpdated => "PARTY_STORAGE_UPDATED"

/-- The outcome of one handler call: the JSON reply, the database after the
call, and the broadcast events emitted during it. -/
structure Out where
  reply : Reply
  db : DB
  events : List Event
  deriving Repr, DecidableEq

/-- The next AUTOINCREMENT id for a table whose current ids are `ids`. -/
def nextId (ids : List Nat) : Nat := ids.foldr max 0 + 1

/-- The JS whitespace class `\s` (the characters `/\s/` matches). -/
def jsWhitespace (c : Char) : Bool :=
  c = ' ' || c = '\t' || c = '\n' || c = '\r' || c.toNat = 0x0B || c.toNat = 0x0C ||
  c.toNat = 0xA0 || c.toNat = 0x1680 || (0x2000 ≤ c.toNat && c.toNat ≤ 0x200A) ||
  c.toNat = 0x2028 || c.toNat = 0x2029 || c.toNat = 0x202F || c.toNat = 0x205F ||
  c.toNat = 0x3000 || c.toNat = 0xFEFF

/-- `replace(/\s+/g, '-')` on a character list: each maximal run of
whitespace becomes a single `'-'`.  The flag records whether the previous
character was inside a whitespace run whose `'-'` was already emitted. -/
def collapseWs : List Char → Bool → List Char
  | [], _ => []
  | c :: cs, inRun =>
    if jsWhitespace c then
      if inRun then collapseWs cs true else '-' :: collapseWs cs true
    else
      c :: collapseWs cs false

/-- Key derivation `name.toLowerCase().replace(/\s+/g, '-')`.  `Char.toLower`
lower-cases the ASCII range, which is what every key in the repository uses. -/
def slugify (name : String) : String :=
  String.mk (collapseWs (name.data.map Char.toLower) false)

/-- `INSERT INTO user_inventory (user_id, item_key, quantity) VALUES (u,k,q)
ON CONFLICT(user_id, item_key) DO UPDATE SET quantity = quantity + q`. -/
def upsertInv (u : Nat) (k : String) (q : Int) (rows : List InvLine) : List InvLine :=
  if rows.any (fun r => decide (r.userId = u ∧ r.itemKey = k)) then
    rows.map (fun r => if r.userId = u ∧ r.itemKey = k then ⟨r.userId, r.itemKey, r.quantity + q⟩ else r)
  else
    rows ++ [⟨u, k, q⟩]

/-- `INSERT INTO party_storage (item_key, quantity) VALUES (k,q)
ON CONFLICT(item_key) DO UPDATE SET quantity = quantity + q`. -/
def upsertStor (k : String) (q : Int) (rows : List StorLine) : List StorLine :=
  if rows.any (fun r => decide (r.itemKey = k)) then
    rows.map (fun r => if r.itemKey = k then ⟨r.itemKey, r.quantity + q⟩ else r)
  else
    rows ++ [⟨k, q⟩]

/-- Handler `POST /api/inventory`: destructures `{itemKey, quantity = 1}`
from the body, rejects a falsy `itemKey` with 400, then runs the upsert.
No broadcast is emitted. -/
def addToInventory (db : DB) (userId : Nat) (itemKey : Option String)
    (quantity : Option Int) : Out :=
  if itemKey.getD "" = "" then
    ⟨.err 400 "Item key required", db, []⟩
  else
    let k := itemKey.getD ""
    let q := quantity.getD 1
    ⟨.okMsg "Item added to inventory",
      { db with userInventory := upsertInv userId k q db.userInventory }, []⟩

/-- The WHERE clause of the UPDATE in `DELETE /api/inventory/:itemKey`:
`user_id = u AND item_key = k AND quantity > q`. -/
def invHit (u : Nat) (k : String) (q : Int) (r : InvLine) : Prop :=
  r.userId = u ∧ r.itemKey = k ∧ q < r.quantity

instance (u : Nat) (k : String) (q : Int) (r : InvLine) : Decidable (invHit u k q r) :=
  inferInstanceAs (Decidable (_ ∧ _ ∧ _))

/-- The per-row effect of the conditional UPDATE of
`DELETE /api/inventory/:itemKey`: decrement exactly the rows the WHERE
clause matches. -/
def updInv (u : Nat) (k : String) (q : Int) (r : InvLine) : InvLine :=
  if invHit u k q r then ⟨r.userId, r.itemKey, r.quantity - q⟩ else r

/-- The table effect of `DELETE /api/inventory/:itemKey`: first
`UPDATE user_inventory SET quantity = quantity - q WHERE user_id = u AND
item_key = k AND quantity > q` (the map over matching rows; `this.changes`
is the count of rows the WHERE matched); when that changed at least one row,
also `DELETE FROM user_inventory WHERE user_id = u AND item_key = k AND
quantity <= 0` (the filter). -/
def removeInvRows (u : Nat) (k : String) (q : Int) (rows : List InvLine) : List InvLine :=
  if 0 < rows.countP (fun r => decide (invHit u k q r)) then
    (rows.map (updInv u k q)).filter
      (fun r => decide (¬ (r.userId = u ∧ r.itemKey = k ∧ r.quantity ≤ 0)))
  else
    rows.map (updInv u k q)

/-- Handler `DELETE /api/inventory/:itemKey`: `itemKey` is a URL parameter,
`{quantity = 1}` is destructured from the body; the handler runs
`removeInvRows` and always replies with the success message, emitting no
broadcast. -/
def removeFromInventory (db : DB) (userId : Nat) (itemKey : String)
    (quantity : Option Int) : Out :=
  ⟨.okMsg "Item removed from inventory",
    { db with userInventory := removeInvRows userId itemKey (quantity.getD 1) db.userInventory },
    []⟩

/-- Handler `POST /api/party-storage`: destructures `{itemKey, quantity = 1}`,
rejects a falsy `itemKey` with 400, runs the upsert and broadcasts
`PARTY_STORAGE_UPDATED`. -/
def addToStorage (db : DB) (itemKey : Option String) (quantity : Option Int) : Out :=
  if itemKey.getD "" = "" then
    ⟨.err 400 "Item key required", db, []⟩
  else
    let k := itemKey.getD ""
    let q := quantity.getD 1
    ⟨.okMsg "Item added to party storage",
      { db with partyStorage := upsertStor k q db.partyStorage },
      [.partyStorageUpdated]⟩

/-- The WHERE clause of the UPDATE in `DELETE /api/party-storage/:itemKey`:
`item_key = k AND quantity > q`. -/
def storHit (k : String) (q : Int) (r : StorLine) : Prop :=
  r.itemKey = k ∧ q < r.quantity

instance (k : String) (q : Int) (r : StorLine) : Decidable (storHit k q r) :=
  inferInstanceAs (Decidable (_ ∧ _))

/-- The per-row effect of the conditional UPDATE of
`DELETE /api/party-storage/:itemKey`. -/
def updStor (k : String) (q : Int) (r : StorLine) : StorLine :=
  if storHit k q r then ⟨r.itemKey, r.quantity - q⟩ else r

/-- The table effect of `DELETE /api/party-storage/:itemKey`: the same
conditional UPDATE then conditional DELETE as `removeInvRows`, keyed only by
`item_key`. -/
def removeStorRows (k : String) (q : Int) (rows : List StorLine) : List StorLine :=
  if 0 < rows.countP (fun r => decide (storHit k q r)) then
    (rows.map (updStor k q)).filter (fun r => decide (¬ (r.itemKey = k ∧ r.quantity ≤ 0)))
  else
    rows.map (updStor k q)

/-- Handler `DELETE /api/party-storage/:itemKey`: mirror image of the
inventory remove, keyed only by `item_key`; it broadcasts
`PARTY_STORAGE_UPDATED` and replies with the success message in every case. -/
def removeFromStorage (db : DB) (itemKey : String) (quantity : Option Int) : Out :=
  ⟨.okMsg "Item removed from party storage",
    { db with partyStorage := removeStorRows itemKey (quantity.getD 1) db.partyStorage },
    [.partyStorageUpdated]⟩

/-- The JS fallback `imageUrl || dflt` (`||` takes the default on a missing
or empty string). -/
def imageOr (imageUrl : Option String) (dflt : String) : String :=
  if imageUrl.getD "" = "" then dflt else imageUrl.getD ""

/-- The row `POST /api/items` inserts. -/
def newItemRow (db : DB) (name description imageUrl : Option String) : Item :=
  ⟨nextId (db.items.map Item.id), slugify (name.getD ""), name.getD "",
    description.getD "", imageOr imageUrl "/api/placeholder/200/150"⟩

/-- Handler `POST /api/items` (after the admin check): rejects falsy name or
description with 400, derives the key with `slugify`, defaults the image URL,
and inserts; the UNIQUE constraint on `item_key` turns a duplicate key into
the 400 "Item already exists" reply with no state change.  On success it
broadcasts `ITEM_ADDED` and replies with the new item. -/
def createItem (db : DB) (name description imageUrl : Option String) : Out :=
  if name.getD "" = "" ∨ description.getD "" = "" then
    ⟨.err 400 "Name and description required", db, []⟩
  else if db.items.any (fun it => decide (it.itemKey = slugify (name.getD ""))) then
    ⟨.err 400 "Item already exists", db, []⟩
  else
    ⟨.okItem (newItemRow db name description imageUrl),
      { db with items := db.items ++ [newItemRow db name description imageUrl] },
      [.itemAdded (newItemRow db name description imageUrl)]⟩

/-- Handler `DELETE /api/items/:itemKey` (after the admin check): runs
`DELETE FROM items WHERE item_key = k`; when that deleted nothing it replies
404.  Otherwise it also deletes every `user_inventory` row and every
`party_storage` row with that key, broadcasts `ITEM_DELETED` and replies with
the success message. -/
def deleteItem (db : DB) (itemKey : String) : Out :=
  let remaining := db.items.filter (fun it => decide (¬ it.itemKey = itemKey))
  if db.items.countP (fun it => decide (it.itemKey = itemKey)) = 0 then
    ⟨.err 404 "Item not found", { db with items := remaining }, []⟩
  else
    ⟨.okMsg "Item deleted successfully",
      { db with items := remaining,
                userInventory := db.userInventory.filter (fun r => decide (¬ r.itemKey = itemKey)),
                partyStorage := db.partyStorage.filter (fun r => decide (¬ r.itemKey = itemKey)) },
      [.itemDeleted itemKey]⟩

/-- The row `POST /api/quests` inserts; `is_active` takes its schema default
TRUE. -/
def newQuestRow (db : DB) (name description imageUrl : Option String) : Quest :=
  ⟨nextId (db.quests.map Quest.id), slugify (name.getD ""), name.getD "",
    description.getD "", imageOr imageUrl "/api/placeholder/400/200", true⟩

/-- Handler `POST /api/quests` (after the admin check): same shape as
`createItem` over the `quests` table; the created quest is active. -/
def createQuest (db : DB) (name description imageUrl : Option String) : Out :=
  if name.getD "" = "" ∨ description.getD "" = "" then
    ⟨.err 400 "Name and description required", db, []⟩
  else if db.quests.any (fun qu => decide (qu.questKey = slugify (name.getD ""))) then
    ⟨.err 400 "Quest already exists", db, []⟩
  else
    ⟨.okQuest (newQuestRow db name description imageUrl),
      { db with quests := db.quests ++ [newQuestRow db name description imageUrl] },
      [.questAdded (newQuestRow db name description imageUrl)]⟩

/-- Handler `DELETE /api/quests/:questKey` (after the admin check): deletes
the quest row, replies 404 when nothing was deleted, otherwise broadcasts
`QUEST_DELETED`. -/
def deleteQuest (db : DB) (questKey : String) : Out :=
  let remaining := db.quests.filter (fun qu => decide (¬ qu.questKey = questKey))
  if db.quests.countP (fun qu => decide (qu.questKey = questKey)) = 0 then
    ⟨.err 404 "Quest not found", { db with quests := remaining }, []⟩
  else
    ⟨.okMsg "Quest deleted successfully", { db with quests := remaining },
      [.questDeleted questKey]⟩

/-- Handler `POST /api/auth/login`.  `hashFn` stands for `bcrypt.hash` and
`checkFn` for `bcrypt.compare`; the token is modelled by its claims.  An
unseen username is auto-provisioned: the INSERT names only `username` and
`password_hash`, so `is_admin` takes its schema default FALSE, and the signed
claims and the reply both carry the literal `isAdmin: false`. -/
def login (hashFn : String → String) (checkFn : String → String → Bool)
    (db : DB) (username password : Option String) : Out :=
  if username.getD "" = "" ∨ password.getD "" = "" then
    ⟨.err 400 "Username and password required", db, []⟩
  else
    match db.users.find? (fun x => decide (x.username = username.getD "")) with
    | none =>
      ⟨.okLogin ⟨nextId (db.users.map User.id), username.getD "", false⟩
                ⟨nextId (db.users.map User.id), username.getD "", false⟩,
        { db with users := db.users ++
            [⟨nextId (db.users.map User.id), username.getD "",
              hashFn (password.getD ""), false⟩] },
        []⟩
    | some user =>
      if checkFn (password.getD "") user.passwordHash then
        ⟨.okLogin ⟨user.id, user.username, user.isAdmin⟩ ⟨user.id, user.username, user.isAdmin⟩,
          db, []⟩
      else
        ⟨.err 401 "Invalid password", db, []⟩

/-- The quantity read by `GET /api/inventory`-style lookups for one
`(user_id, item_key)` pair: the first matching row's quantity. -/
def lookupInv (db : DB) (u : Nat) (k : String) : Option Int :=
  (db.userInventory.find? (fun r => decide (r.userId = u ∧ r.itemKey = k))).map InvLine.quantity

/-- One call of the four Ledger quantity operations, with the caller-supplied
arguments (quantities optional, as in the JSON bodies). -/
inductive LedgerOp where
  | addInv (u : Nat) (k : Option String) (q : Option Int)
  | removeInv (u : Nat) (k : String) (q : Option Int)
  | addStor (k : Option String) (q : Option Int)
  | removeStor (k : String) (q : Option Int)
  deriving Repr, DecidableEq

/-- The state transition of one Ledger operation. -/
def applyOp (db : DB) : LedgerOp → DB
  | .addInv u k q => (addToInventory db u k q).db
  | .removeInv u k q => (removeFromInventory db u k q).db
  | .addStor k q => (addToStorage db k q).db
  | .removeStor k q => (removeFromStorage db k q).db

/-- Run a sequence of Ledger operations from a given database. -/
def runOps (db : DB) (ops : List LedgerOp) : DB := ops.foldl applyOp db

/-- Invariant I1 of the spec: every persisted inventory and storage line has
a positive quantity. -/
def quantitiesPositive (db : DB) : Prop :=
  (∀ r ∈ db.userInventory, 0 < r.quantity) ∧ (∀ r ∈ db.partyStorage, 0 < r.quantity)

/-- An operation whose effective add quantity (after the default) is
positive; remove quantities are unconstrained. -/
def addQtyPositive : LedgerOp → Prop
  | .addInv _ _ q => 0 < q.getD 1
  | .addStor _ q => 0 < q.getD 1
  | _ => True

instance : (op : LedgerOp) → Decidable (addQtyPositive op) := fun op =>
  match op with
  | .addInv _ _ q => inferInstanceAs (Decidable (0 < q.getD 1))
  | .removeInv _ _ _ => inferInstanceAs (Decidable True)
  | .addStor _ q => inferInstanceAs (Decidable (0 < q.getD 1))
  | .removeStor _ _ => inferInstanceAs (Decidable True)

lemma find?_append_of_none {α : Type} (p : α → Bool) (l l' : List α)
    (h : l.find? p = none) : (l ++ l').find? p = l'.find? p := by
  induction l with
  | nil => simp
  | cons x xs ih =>
    by_cases hx : p x = true
    · rw [List.find?_cons_of_pos _ hx] at h; exact absurd h (by simp)
    · rw [List.find?_cons_of_neg _ hx] at h
      rw [List.cons_append, List.find?_cons_of_neg _ hx]
      exact ih h

lemma find?_upsertInv_update (u : Nat) (k : String) (q : Int) :
    ∀ (l : List InvLine) (r0 : InvLine),
      l.find? (fun r => decide (r.userId = u ∧ r.itemKey = k)) = some r0 →
      (l.map (fun r => if r.userId = u ∧ r.itemKey = k then
            ⟨r.userId, r.itemKey, r.quantity + q⟩ else r)).find?
          (fun r => decide (r.userId = u ∧ r.itemKey = k))
        = some ⟨r0.userId, r0.itemKey, r0.quantity + q⟩ := by
  intro l
  induction l with
  | nil => intro r0 h; simp at h
  | cons x xs ih =>
    intro r0 h
    by_cases hx : x.userId = u ∧ x.itemKey = k
    · rw [List.find?_cons_of_pos _ (by simpa using hx)] at h
      injection h with h
      subst h
      rw [List.map_cons, if_pos hx]
      exact List.find?_cons_of_pos _ (by simpa using hx)
    · rw [List.find?_cons_of_neg _ (by simpa using hx)] at h
      rw [List.map_cons, if_neg hx, List.find?_cons_of_neg _ (by simpa using hx)]
      exact ih r0 h

/-- C8: `POST /api/inventory` accumulates.  On an absent `(u,k)` line the
upsert creates it with the requested quantity; on a present line with
quantity `n` it leaves `n + q`; and adding 3 then 2 to the empty store
leaves quantity 5. -/
theorem addToInventory_accumulates (db : DB) (u : Nat) (k : String) (q : Int)
    (hk : k ≠ "") :
    (lookupInv db u k = none →
      lookupInv (addToInventory db u (some k) (some q)).db u k = some q) ∧
    (∀ n : Int, lookupInv db u k = some n →
      lookupInv (addToInventory db u (some k) (some q)).db u k = some (n + q)) ∧
    lookupInv (addToInventory (addToInventory emptyDB u (some k) (some 3)).db
        u (some k) (some 2)).db u k = some 5 := by
  have hdbgen : ∀ (st : DB) (q' : Int), (addToInventory st u (some k) (some q')).db
      = { st with userInventory := upsertInv u k q' st.userInventory } := by
    intro st q'
    rw [addToInventory, if_neg (by simpa using hk)]
    rfl
  have key1 : ∀ (st : DB) (q' : Int), lookupInv st u k = none →
      lookupInv (addToInventory st u (some k) (some q')).db u k = some q' := by
    intro st q' hnone
    have hfind : st.userInventory.find?
        (fun r => decide (r.userId = u ∧ r.itemKey = k)) = none :=
      Option.map_eq_none'.mp hnone
    have hany : st.userInventory.any
        (fun r => decide (r.userId = u ∧ r.itemKey = k)) = false :=
      List.any_eq_false.mpr (List.find?_eq_none.mp hfind)
    rw [hdbgen, lookupInv]
    show ((upsertInv u k q' st.userInventory).find? _).map _ = _
    rw [upsertInv, if_neg (by rw [hany]; exact Bool.false_ne_true)]
    rw [find?_append_of_none _ _ _ hfind]
    rw [List.find?_cons_of_pos _ (by simp)]
    rfl
  have key2 : ∀ (st : DB) (n q' : Int), lookupInv st u k = some n →
      lookupInv (addToInventory st u (some k) (some q')).db u k = some (n + q') := by
    intro st n q' hn
    rcases Option.map_eq_some'.mp hn with ⟨r0, hr0, hq0⟩
    have hmem := List.mem_of_find?_eq_some hr0
    have hmatch : r0.userId = u ∧ r0.itemKey = k := by
      simpa using List.find?_some hr0
    have hany : st.userInventory.any
        (fun r => decide (r.userId = u ∧ r.itemKey = k)) = true :=
      List.any_eq_true.mpr ⟨r0, hmem, by simpa using hmatch⟩
    rw [hdbgen, lookupInv]
    show ((upsertInv u k q' st.userInventory).find? _).map _ = _
    rw [upsertInv, if_pos hany]
    rw [find?_upsertInv_update u k q' st.userInventory r0 hr0]
    show some _ = _
    rw [hq0]
  refine ⟨key1 db q, fun n => key2 db n q, ?_⟩
  have h3 := key1 emptyDB 3 (by rfl)
  have h5 := key2 (addToInventory emptyDB u (some k) (some 3)).db 3 2 h3
  have : (3 : Int) + 2 = 5 := by decide
  rw [this] at h5
  exact h5

/-- C4 (amended): each quantity argument defaults to 1 exactly when the
field is omitted, and a supplied zero or negative quantity is never
rejected: every one of the four handlers proceeds and replies with its
success message for every supplied integer quantity. -/
theorem quantity_default_and_no_validation (db : DB) (u : Nat) (k : String)
    (ko : Option String) (q : Int) (hk : k ≠ "") :
    addToInventory db u ko none = addToInventory db u ko (some 1) ∧
    removeFromInventory db u k none = removeFromInventory db u k (some 1) ∧
    addToStorage db ko none = addToStorage db ko (some 1) ∧
    removeFromStorage db k none = removeFromStorage db k (some 1) ∧
    (addToInventory db u (some k) (some q)).reply = .okMsg "Item added to inventory" ∧
    (removeFromInventory db u k (some q)).reply = .okMsg "Item removed from inventory" ∧
    (addToStorage db (some k) (some q)).reply = .okMsg "Item added to party storage" ∧
    (removeFromStorage db k (some q)).reply = .okMsg "Item removed from party storage" := by
  refine ⟨rfl, rfl, rfl, rfl, ?_, rfl, ?_, rfl⟩
  · rw [addToInventory, if_neg (by simpa using hk)]
  · rw [addToStorage, if_neg (by simpa using hk)]

/-- C5: `DELETE /api/items/:itemKey` replies 404 and leaves the database
unchanged when no catalog item has the key; when one does, it replies with
the success message and afterwards no catalog item, no inventory line and no
party-storage line carries that key. -/
theorem deleteItem_notFound_and_cascade (db : DB) (k : String) :
    ((∀ it ∈ db.items, it.itemKey ≠ k) →
      (deleteItem db k).reply = .err 404 "Item not found" ∧ (deleteItem db k).db = db) ∧
    ((∃ it ∈ db.items, it.itemKey = k) →
      (deleteItem db k).reply = .okMsg "Item deleted successfully" ∧
      (∀ it ∈ (deleteItem db k).db.items, it.itemKey ≠ k) ∧
      (∀ r ∈ (deleteItem db k).db.userInventory, r.itemKey ≠ k) ∧
      (∀ r ∈ (deleteItem db k).db.partyStorage, r.itemKey ≠ k)) := by
  constructor
  · intro habs
    have hcount : db.items.countP (fun it => decide (it.itemKey = k)) = 0 := by
      rw [List.countP_eq_zero]
      intro it hit
      simpa using habs it hit
    have hfilter : db.items.filter (fun it => decide (¬ it.itemKey = k)) = db.items := by
      rw [List.filter_eq_self]
      intro it hit
      simpa using habs it hit
    rw [deleteItem, if_pos hcount]
    exact ⟨rfl, by rw [hfilter]⟩
  · intro hex
    have hcount : ¬ db.items.countP (fun it => decide (it.itemKey = k)) = 0 := by
      rcases hex with ⟨it, hit, hkey⟩
      have : 0 < db.items.countP (fun it => decide (it.itemKey = k)) :=
        List.countP_pos_iff.mpr ⟨it, hit, by simpa using hkey⟩
      omega
    rw [deleteItem, if_neg hcount]
    refine ⟨rfl, ?_, ?_, ?_⟩
    · intro it hit
      simpa using (List.mem_filter.mp hit).2
    · intro r hr
      simpa using (List.mem_filter.mp hr).2
    · intro r hr
      simpa using (List.mem_filter.mp hr).2

/-- C1: evaluating `DELETE /api/inventory/:itemKey` at the failing input: a
user holding exactly 2 stimpaks asks to remove 2.  The UPDATE's strict
`quantity > 2` guard matches nothing, so the line survives unchanged at
quantity 2 (it is not deleted), yet the handler replies with the success
message. -/
theorem remove_at_exact_quantity_is_no_op :
    (removeFromInventory ⟨[], [], [⟨1, "stimpak", 2⟩], [], []⟩ 1 "stimpak" (some 2)).db.userInventory
        = [⟨1, "stimpak", 2⟩] ∧
    (removeFromInventory ⟨[], [], [⟨1, "stimpak", 2⟩], [], []⟩ 1 "stimpak" (some 2)).reply
        = .okMsg "Item removed from inventory" := by
  constructor <;> rfl

/-- C2: evaluating `DELETE /api/inventory/:itemKey` when the line is absent
(quantity short of the request): the state is unchanged, but the handler
replies with the plain success message — there is no `InsufficientQuantity`
(or any other) failure path; the reply is the same success message for every
database and every request. -/
theorem remove_insufficient_replies_success :
    (removeFromInventory emptyDB 1 "stimpak" (some 1)).db = emptyDB ∧
    (removeFromInventory emptyDB 1 "stimpak" (some 1)).reply
        = .okMsg "Item removed from inventory" ∧
    ∀ (db : DB) (u : Nat) (k : String) (q : Option Int),
      (removeFromInventory db u k q).reply = .okMsg "Item removed from inventory" := by
  exact ⟨by rfl, by rfl, fun _ _ _ _ => rfl⟩

/-- C3 counterexample: a single `addToInventory` with caller-supplied
quantity 0 starting from the empty store persists an inventory line with
quantity 0, so invariant I1 fails for arbitrary caller-supplied quantities. -/
theorem ledger_nonpositive_line_persists :
    (runOps emptyDB [.addInv 1 "stimpak" (some 0)]).userInventory = [⟨1, "stimpak", 0⟩] ∧
    ¬ quantitiesPositive (runOps emptyDB [.addInv 1 "stimpak" (some 0)]) := by
  constructor
  · rfl
  · intro h
    exact absurd (h.1 ⟨1, "stimpak", 0⟩ (by rw [show (runOps emptyDB [.addInv 1 "stimpak" (some 0)]).userInventory = [⟨1, "stimpak", 0⟩] from rfl]; exact List.mem_singleton.mpr rfl)) (by decide)

/-- C4 counterexample: `POST /api/inventory` with a supplied quantity of 0 is
not rejected: it replies with the success message and persists a line with
quantity 0 (a mutation), instead of a `BadRequest` with no state change. -/
theorem zero_quantity_not_rejected :
    (addToInventory emptyDB 1 (some "stimpak") (some 0)).reply
        = .okMsg "Item added to inventory" ∧
    (addToInventory emptyDB 1 (some "stimpak") (some 0)).db.userInventory
        = [⟨1, "stimpak", 0⟩] := by
  constructor <;> rfl

/-- C6 counterexample: a successful `POST /api/party-storage` emits exactly
one event, but its type is the string `PARTY_STORAGE_UPDATED`, not the
`STORAGE_UPDATED` the claim names. -/
theorem storage_broadcast_type_differs :
    (addToStorage emptyDB (some "stimpak") (some 2)).reply.isOk = true ∧
    (addToStorage emptyDB (some "stimpak") (some 2)).events.map Event.type
        = ["PARTY_STORAGE_UPDATED"] ∧
    (addToStorage emptyDB (some "stimpak") (some 2)).events.map Event.type
        ≠ ["STORAGE_UPDATED"] := by
  refine ⟨rfl, rfl, ?_⟩
  decide

lemma createItem_success (db : DB) (n d i : String) (hn : n ≠ "") (hd : d ≠ "")
    (hfree : ∀ it ∈ db.items, it.itemKey ≠ slugify n) :
    createItem db (some n) (some d) (some i)
      = ⟨.okItem (newItemRow db (some n) (some d) (some i)),
         { db with items := db.items ++ [newItemRow db (some n) (some d) (some i)] },
         [.itemAdded (newItemRow db (some n) (some d) (some i))]⟩ := by
  have hany : db.items.any (fun it => decide (it.itemKey = slugify ((some n).getD ""))) = false :=
    List.any_eq_false.mpr (fun it hit => by simpa using hfree it hit)
  rw [createItem, if_neg (by simp [hn, hd]), if_neg (by rw [hany]; exact Bool.false_ne_true)]

lemma createItem_conflict (db : DB) (n d i : String) (hn : n ≠ "") (hd : d ≠ "")
    (hdup : ∃ it ∈ db.items, it.itemKey = slugify n) :
    createItem db (some n) (some d) (some i) = ⟨.err 400 "Item already exists", db, []⟩ := by
  have hany : db.items.any (fun it => decide (it.itemKey = slugify ((some n).getD ""))) = true := by
    rcases hdup with ⟨it, hit, hkey⟩
    exact List.any_eq_true.mpr ⟨it, hit, by simpa using hkey⟩
  rw [createItem, if_neg (by simp [hn, hd]), if_pos hany]

/-- C7: `slugify` is the deterministic key derivation (lower-cased,
whitespace runs collapsed to `-`); "Stim Pak" and "stim   pak" derive the
same key `stim-pak`, and for any two creates whose names collide on a key
that is free in the catalog, the first succeeds and the second fails with
the duplicate error, leaving the state exactly as after the first. -/
theorem createItem_key_collision (db : DB) (n1 n2 d1 d2 i1 i2 : String)
    (hn1 : n1 ≠ "") (hd1 : d1 ≠ "") (hn2 : n2 ≠ "") (hd2 : d2 ≠ "")
    (hslug : slugify n1 = slugify n2)
    (hfree : ∀ it ∈ db.items, it.itemKey ≠ slugify n1) :
    slugify "Stim Pak" = "stim-pak" ∧ slugify "stim   pak" = "stim-pak" ∧
    (createItem db (some n1) (some d1) (some i1)).reply
        = .okItem (newItemRow db (some n1) (some d1) (some i1)) ∧
    (createItem (createItem db (some n1) (some d1) (some i1)).db
        (some n2) (some d2) (some i2)).reply = .err 400 "Item already exists" ∧
    (createItem (createItem db (some n1) (some d1) (some i1)).db
        (some n2) (some d2) (some i2)).db
      = (createItem db (some n1) (some d1) (some i1)).db := by
  have h1 := createItem_success db n1 d1 i1 hn1 hd1 hfree
  have hdup : ∃ it ∈ (createItem db (some n1) (some d1) (some i1)).db.items,
      it.itemKey = slugify n2 := by
    refine ⟨newItemRow db (some n1) (some d1) (some i1), ?_, ?_⟩
    · rw [h1]
      exact List.mem_append_right _ (List.mem_singleton.mpr rfl)
    · show slugify ((some n1).getD "") = slugify n2
      simpa using hslug
  have h2 := createItem_conflict (createItem db (some n1) (some d1) (some i1)).db
    n2 d2 i2 hn2 hd2 hdup
  refine ⟨by decide, by decide, by rw [h1], by rw [h2], by rw [h2]⟩

/-- C6 (amended): a successful item or quest create/delete emits exactly one
broadcast whose type names the entity and action; every party-storage
mutation emits exactly one `PARTY_STORAGE_UPDATED` broadcast (the storage
remove broadcasts even when nothing matched); inventory adds and removes
emit no broadcast at all. -/
theorem broadcast_contract (db : DB) (u : Nat) (n d i : Option String)
    (k : String) (ko : Option String) (q : Option Int) :
    ((createItem db n d i).reply.isOk = true →
      (createItem db n d i).events.map Event.type = ["ITEM_ADDED"]) ∧
    ((deleteItem db k).reply.isOk = true →
      (deleteItem db k).events.map Event.type = ["ITEM_DELETED"]) ∧
    ((createQuest db n d i).reply.isOk = true →
      (createQuest db n d i).events.map Event.type = ["QUEST_ADDED"]) ∧
    ((deleteQuest db k).reply.isOk = true →
      (deleteQuest db k).events.map Event.type = ["QUEST_DELETED"]) ∧
    ((addToStorage db ko q).reply.isOk = true →
      (addToStorage db ko q).events.map Event.type = ["PARTY_STORAGE_UPDATED"]) ∧
    (removeFromStorage db k q).events.map Event.type = ["PARTY_STORAGE_UPDATED"] ∧
    (addToInventory db u ko q).events = [] ∧
    (removeFromInventory db u k q).events = [] := by
  refine ⟨?_, ?_, ?_, ?_, ?_, rfl, ?_, rfl⟩
  · intro hok
    rw [createItem] at hok ⊢
    split_ifs at hok ⊢
    · simp [Reply.isOk] at hok
    · simp [Reply.isOk] at hok
    · rfl
  · intro hok
    rw [deleteItem] at hok ⊢
    split_ifs at hok ⊢
    · simp [Reply.isOk] at hok
    · rfl
  · intro hok
    rw [createQuest] at hok ⊢
    split_ifs at hok ⊢
    · simp [Reply.isOk] at hok
    · simp [Reply.isOk] at hok
    · rfl
  · intro hok
    rw [deleteQuest] at hok ⊢
    split_ifs at hok ⊢
    · simp [Reply.isOk] at hok
    · rfl
  · intro hok
    rw [addToStorage] at hok ⊢
    split_ifs at hok ⊢
    · simp [Reply.isOk] at hok
    · rfl
  · rw [addToInventory]
    split_ifs <;> rfl

/-- C10: a login with an unseen username auto-provisions the account: the
inserted `users` row has `is_admin` at its schema default FALSE, and both
the signed token claims and the reply's user object carry `isAdmin = false`. -/
theorem login_autoprovision_not_admin (hashFn : String → String)
    (checkFn : String → String → Bool) (db : DB) (u p : String)
    (hu : u ≠ "") (hp : p ≠ "") (hnew : ∀ x ∈ db.users, x.username ≠ u) :
    (login hashFn checkFn db (some u) (some p)).db.users
        = db.users ++ [⟨nextId (db.users.map User.id), u, hashFn p, false⟩] ∧
    (∀ x ∈ (login hashFn checkFn db (some u) (some p)).db.users,
        x.username = u → x.isAdmin = false) ∧
    (login hashFn checkFn db (some u) (some p)).reply
        = .okLogin ⟨nextId (db.users.map User.id), u, false⟩
                   ⟨nextId (db.users.map User.id), u, false⟩ := by
  have hfind : db.users.find? (fun x => decide (x.username = (some u).getD "")) = none :=
    List.find?_eq_none.mpr (fun x hx => by simpa using hnew x hx)
  have hlogin : login hashFn checkFn db (some u) (some p)
      = ⟨.okLogin ⟨nextId (db.users.map User.id), u, false⟩
                  ⟨nextId (db.users.map User.id), u, false⟩,
         { db with users := db.users ++
             [⟨nextId (db.users.map User.id), u, hashFn p, false⟩] }, []⟩ := by
    rw [login, if_neg (by simp [hu, hp]), hfind]
    rfl
  refine ⟨by rw [hlogin], ?_, by rw [hlogin]⟩
  intro x hx hxu
  rw [hlogin] at hx
  rcases List.mem_append.mp hx with hx | hx
  · exact absurd hxu (hnew x hx)
  · rw [List.mem_singleton.mp hx]

lemma upsertInv_pos (u : Nat) (k : String) (q : Int) (rows : List InvLine)
    (hrows : ∀ r ∈ rows, 0 < r.quantity) (hq : 0 < q) :
    ∀ r ∈ upsertInv u k q rows, 0 < r.quantity := by
  intro r hr
  rw [upsertInv] at hr
  split_ifs at hr with hany
  · rcases List.mem_map.mp hr with ⟨a, ha, rfl⟩
    show 0 < (if a.userId = u ∧ a.itemKey = k then
      (⟨a.userId, a.itemKey, a.quantity + q⟩ : InvLine) else a).quantity
    split_ifs with hhit
    · have := hrows a ha
      show 0 < a.quantity + q
      omega
    · exact hrows a ha
  · rcases List.mem_append.mp hr with h | h
    · exact hrows r h
    · rw [List.mem_singleton.mp h]
      exact hq

lemma upsertStor_pos (k : String) (q : Int) (rows : List StorLine)
    (hrows : ∀ r ∈ rows, 0 < r.quantity) (hq : 0 < q) :
    ∀ r ∈ upsertStor k q rows, 0 < r.quantity := by
  intro r hr
  rw [upsertStor] at hr
  split_ifs at hr with hany
  · rcases List.mem_map.mp hr with ⟨a, ha, rfl⟩
    show 0 < (if a.itemKey = k then (⟨a.itemKey, a.quantity + q⟩ : StorLine) else a).quantity
    split_ifs with hhit
    · have := hrows a ha
      show 0 < a.quantity + q
      omega
    · exact hrows a ha
  · rcases List.mem_append.mp hr with h | h
    · exact hrows r h
    · rw [List.mem_singleton.mp h]
      exact hq

lemma removeInvRows_pos (u : Nat) (k : String) (q : Int) (rows : List InvLine)
    (hrows : ∀ r ∈ rows, 0 < r.quantity) :
    ∀ r ∈ removeInvRows u k q rows, 0 < r.quantity := by
  have hupd : ∀ r ∈ rows.map (updInv u k q), 0 < r.quantity := by
    intro r hr
    rcases List.mem_map.mp hr with ⟨a, ha, rfl⟩
    rw [updInv]
    split_ifs with hhit
    · have := hhit.2.2
      show 0 < a.quantity - q
      omega
    · exact hrows a ha
  intro r hr
  rw [removeInvRows] at hr
  split_ifs at hr with hchanges
  · exact hupd r (List.mem_filter.mp hr).1
  · exact hupd r hr

lemma removeStorRows_pos (k : String) (q : Int) (rows : List StorLine)
    (hrows : ∀ r ∈ rows, 0 < r.quantity) :
    ∀ r ∈ removeStorRows k q rows, 0 < r.quantity := by
  have hupd : ∀ r ∈ rows.map (updStor k q), 0 < r.quantity := by
    intro r hr
    rcases List.mem_map.mp hr with ⟨a, ha, rfl⟩
    rw [updStor]
    split_ifs with hhit
    · have := hhit.2
      show 0 < a.quantity - q
      omega
    · exact hrows a ha
  intro r hr
  rw [removeStorRows] at hr
  split_ifs at hr with hchanges
  · exact hupd r (List.mem_filter.mp hr).1
  · exact hupd r hr

lemma applyOp_preserves (db : DB) (op : LedgerOp) (hpos : addQtyPositive op)
    (h : quantitiesPositive db) : quantitiesPositive (applyOp db op) := by
  rcases h with ⟨hinv, hstor⟩
  cases op with
  | addInv uu kk qq =>
    rw [applyOp, addToInventory]
    split_ifs with hkey
    · exact ⟨hinv, hstor⟩
    · exact ⟨upsertInv_pos _ _ _ _ hinv hpos, hstor⟩
  | removeInv uu kk qq =>
    rw [applyOp, removeFromInventory]
    exact ⟨removeInvRows_pos _ _ _ _ hinv, hstor⟩
  | addStor kk qq =>
    rw [applyOp, addToStorage]
    split_ifs with hkey
    · exact ⟨hinv, hstor⟩
    · exact ⟨hinv, upsertStor_pos _ _ _ hstor hpos⟩
  | removeStor kk qq =>
    rw [applyOp, removeFromStorage]
    exact ⟨hinv, removeStorRows_pos _ _ _ hstor⟩

lemma runOps_preserves (ops : List LedgerOp) : ∀ (db : DB), quantitiesPositive db →
    (∀ op ∈ ops, addQtyPositive op) → quantitiesPositive (runOps db ops) := by
  induction ops with
  | nil =>
    intro db h _
    exact h
  | cons op ops ih =>
    intro db h hall
    rw [runOps, List.foldl_cons]
    exact ih (applyOp db op)
      (applyOp_preserves db op (hall op (List.mem_cons_self op ops)) h)
      (fun o ho => hall o (List.mem_cons_of_mem _ ho))

/-- C3 (amended): for every finite sequence of the four quantity operations
starting from the empty store, if every add carries a positive effective
quantity (supplied positive, or omitted and defaulted to 1) then every
persisted inventory and storage line has quantity > 0 — remove quantities
are unconstrained. -/
theorem ledger_invariant_positive (ops : List LedgerOp)
    (h : ∀ op ∈ ops, addQtyPositive op) :
    quantitiesPositive (runOps emptyDB ops) := by
  refine runOps_preserves ops emptyDB ⟨?_, ?_⟩ h
  · intro r hr
    exact absurd hr (List.not_mem_nil r)
  · intro r hr
    exact absurd hr (List.not_mem_nil r)

lemma updInv_of_hit (u : Nat) (k : String) (q : Int) (r : InvLine)
    (h : invHit u k q r) :
    updInv u k q r = ⟨r.userId, r.itemKey, r.quantity - q⟩ := by
  rw [updInv, if_pos h]

lemma updInv_of_miss (u : Nat) (k : String) (q : Int) (r : InvLine)
    (h : ¬ invHit u k q r) : updInv u k q r = r := by
  rw [updInv, if_neg h]

lemma updStor_of_hit (k : String) (q : Int) (r : StorLine)
    (h : storHit k q r) : updStor k q r = ⟨r.itemKey, r.quantity - q⟩ := by
  rw [updStor, if_pos h]

lemma updStor_of_miss (k : String) (q : Int) (r : StorLine)
    (h : ¬ storHit k q r) : updStor k q r = r := by
  rw [updStor, if_neg h]

lemma removeInvRows_length (u : Nat) (k : String) (q : Int) (rows : List InvLine)
    (hnodup : (rows.map (fun r => (r.userId, r.itemKey))).Nodup) :
    (removeInvRows u k q rows).length = rows.length := by
  rw [removeInvRows]
  split_ifs with hchanges
  · have hall : ∀ r ∈ rows.map (updInv u k q),
        (fun r => decide (¬ (r.userId = u ∧ r.itemKey = k ∧ r.quantity ≤ 0))) r = true := by
      intro r hr
      rcases List.mem_map.mp hr with ⟨a, ha, rfl⟩
      rw [decide_eq_true_eq]
      rintro ⟨hx1, hx2, hx3⟩
      by_cases hhit : invHit u k q a
      · rw [updInv_of_hit u k q a hhit] at hx3
        have h1 : a.quantity - q ≤ 0 := hx3
        have h2 := hhit.2.2
        omega
      · rw [updInv_of_miss u k q a hhit] at hx1 hx2 hx3
        rcases List.countP_pos_iff.mp hchanges with ⟨b, hb, hbdec⟩
        have hbhit : invHit u k q b := of_decide_eq_true hbdec
        have hab : a = b := by
          refine List.inj_on_of_nodup_map hnodup ha hb ?_
          rw [hx1, hx2, hbhit.1, hbhit.2.1]
        rw [hab] at hhit
        exact hhit hbhit
    rw [List.filter_eq_self.mpr hall, List.length_map]
  · rw [List.length_map]

lemma removeStorRows_length (k : String) (q : Int) (rows : List StorLine)
    (hnodup : (rows.map StorLine.itemKey).Nodup) :
    (removeStorRows k q rows).length = rows.length := by
  rw [removeStorRows]
  split_ifs with hchanges
  · have hall : ∀ r ∈ rows.map (updStor k q),
        (fun r => decide (¬ (r.itemKey = k ∧ r.quantity ≤ 0))) r = true := by
      intro r hr
      rcases List.mem_map.mp hr with ⟨a, ha, rfl⟩
      rw [decide_eq_true_eq]
      rintro ⟨hx1, hx2⟩
      by_cases hhit : storHit k q a
      · rw [updStor_of_hit k q a hhit] at hx2
        have h1 : a.quantity - q ≤ 0 := hx2
        have h2 := hhit.2
        omega
      · rw [updStor_of_miss k q a hhit] at hx1 hx2
        rcases List.countP_pos_iff.mp hchanges with ⟨b, hb, hbdec⟩
        have hbhit : storHit k q b := of_decide_eq_true hbdec
        have hab : a = b := by
          refine List.inj_on_of_nodup_map hnodup ha hb ?_
          rw [hx1, hbhit.1]
        rw [hab] at hhit
        exact hhit hbhit
    rw [List.filter_eq_self.mpr hall, List.length_map]
  · rw [List.length_map]

lemma removeInvRows_mem (u : Nat) (k : String) (q : Int) (rows : List InvLine) :
    ∀ r ∈ removeInvRows u k q rows,
      r ∈ rows ∨ ∃ r0 ∈ rows, r0.userId = r.userId ∧ r0.itemKey = r.itemKey ∧
        q < r0.quantity ∧ r.quantity = r0.quantity - q ∧ 1 ≤ r.quantity := by
  intro r hr
  have hr' : r ∈ rows.map (updInv u k q) := by
    rw [removeInvRows] at hr
    split_ifs at hr with hchanges
    · exact (List.mem_filter.mp hr).1
    · exact hr
  rcases List.mem_map.mp hr' with ⟨a, ha, rfl⟩
  by_cases hhit : invHit u k q a
  · right
    refine ⟨a, ha, ?_⟩
    rw [updInv_of_hit u k q a hhit]
    have h2 := hhit.2.2
    refine ⟨rfl, rfl, h2, rfl, ?_⟩
    show 1 ≤ a.quantity - q
    omega
  · left
    rw [updInv_of_miss u k q a hhit]
    exact ha

lemma removeStorRows_mem (k : String) (q : Int) (rows : List StorLine) :
    ∀ r ∈ removeStorRows k q rows,
      r ∈ rows ∨ ∃ r0 ∈ rows, r0.itemKey = r.itemKey ∧
        q < r0.quantity ∧ r.quantity = r0.quantity - q ∧ 1 ≤ r.quantity := by
  intro r hr
  have hr' : r ∈ rows.map (updStor k q) := by
    rw [removeStorRows] at hr
    split_ifs at hr with hchanges
    · exact (List.mem_filter.mp hr).1
    · exact hr
  rcases List.mem_map.mp hr' with ⟨a, ha, rfl⟩
  by_cases hhit : storHit k q a
  · right
    refine ⟨a, ha, ?_⟩
    rw [updStor_of_hit k q a hhit]
    have h2 := hhit.2
    refine ⟨rfl, h2, rfl, ?_⟩
    show 1 ≤ a.quantity - q
    omega
  · left
    rw [updStor_of_miss k q a hhit]
    exact ha

/-- C9: under the schema's UNIQUE constraints, both remove handlers
decrement a row only when its current quantity is strictly greater than the
requested quantity (so every row of the result is either an untouched
original row or a decremented one ending at quantity >= 1), and the
follow-up `DELETE ... WHERE quantity <= 0` statement never matches a row:
the table keeps its exact number of rows, so no remove ever deletes a line. -/
theorem remove_strict_guard_never_deletes (db : DB) (u : Nat) (k : String)
    (qo : Option Int)
    (hinv : (db.userInventory.map (fun r => (r.userId, r.itemKey))).Nodup)
    (hstor : (db.partyStorage.map StorLine.itemKey).Nodup) :
    ((removeFromInventory db u k qo).db.userInventory.length
        = db.userInventory.length ∧
      ∀ r ∈ (removeFromInventory db u k qo).db.userInventory,
        r ∈ db.userInventory ∨
        ∃ r0 ∈ db.userInventory, r0.userId = r.userId ∧ r0.itemKey = r.itemKey ∧
          qo.getD 1 < r0.quantity ∧ r.quantity = r0.quantity - qo.getD 1 ∧
          1 ≤ r.quantity) ∧
    ((removeFromStorage db k qo).db.partyStorage.length
        = db.partyStorage.length ∧
      ∀ r ∈ (removeFromStorage db k qo).db.partyStorage,
        r ∈ db.partyStorage ∨
        ∃ r0 ∈ db.partyStorage, r0.itemKey = r.itemKey ∧
          qo.getD 1 < r0.quantity ∧ r.quantity = r0.quantity - qo.getD 1 ∧
          1 ≤ r.quantity) := by
  refine ⟨⟨?_, ?_⟩, ⟨?_, ?_⟩⟩
  · exact removeInvRows_length u k (qo.getD 1) db.userInventory hinv
  · exact removeInvRows_mem u k (qo.getD 1) db.userInventory
  · exact removeStorRows_length k (qo.getD 1) db.partyStorage hstor
  · exact removeStorRows_mem k (qo.getD 1) db.partyStorage

/-- Witness for C8 at a concrete input: adding 2 stimpaks to an empty
inventory creates the line at 2; adding 3 then 2 leaves 5. -/
theorem addToInventory_accumulates_witness :
    lookupInv (addToInventory emptyDB 1 (some "stimpak") (some 2)).db 1 "stimpak" = some 2 ∧
    lookupInv (addToInventory (addToInventory emptyDB 1 (some "stimpak") (some 3)).db
        1 (some "stimpak") (some 2)).db 1 "stimpak" = some 5 := by
  have h := addToInventory_accumulates emptyDB 1 "stimpak" 2 (by decide)
  exact ⟨h.1 (by decide), h.2.2⟩

/-- Witness for C4 (amended) at a concrete input: an omitted quantity equals
a supplied 1, and a supplied -5 is accepted with the success reply. -/
theorem quantity_default_and_no_validation_witness :
    addToInventory emptyDB 1 (some "radaway") none
        = addToInventory emptyDB 1 (some "radaway") (some 1) ∧
    (addToInventory emptyDB 1 (some "stimpak") (some (-5))).reply
        = .okMsg "Item added to inventory" := by
  have h := quantity_default_and_no_validation emptyDB 1 "stimpak" (some "radaway") (-5) (by decide)
  exact ⟨h.1, h.2.2.2.2.1⟩

/-- Witness for C5 at a concrete input: deleting an absent key is a 404,
deleting a present one succeeds. -/
theorem deleteItem_notFound_and_cascade_witness :
    (deleteItem ⟨[], [⟨1, "stimpak", "Stimpak", "d", "i"⟩], [⟨1, "stimpak", 2⟩],
        [⟨"stimpak", 3⟩], []⟩ "radaway").reply = .err 404 "Item not found" ∧
    (deleteItem ⟨[], [⟨1, "stimpak", "Stimpak", "d", "i"⟩], [⟨1, "stimpak", 2⟩],
        [⟨"stimpak", 3⟩], []⟩ "stimpak").reply = .okMsg "Item deleted successfully" := by
  have h1 := (deleteItem_notFound_and_cascade ⟨[], [⟨1, "stimpak", "Stimpak", "d", "i"⟩],
    [⟨1, "stimpak", 2⟩], [⟨"stimpak", 3⟩], []⟩ "radaway").1 (by decide)
  have h2 := (deleteItem_notFound_and_cascade ⟨[], [⟨1, "stimpak", "Stimpak", "d", "i"⟩],
    [⟨1, "stimpak", 2⟩], [⟨"stimpak", 3⟩], []⟩ "stimpak").2 (by decide)
  exact ⟨h1.1, h2.1⟩

/-- Witness for C7 at the spec's own example: "Stim Pak" then "stim   pak"
collide on `stim-pak` and the second create is the duplicate error. -/
theorem createItem_key_collision_witness :
    slugify "Stim Pak" = "stim-pak" ∧ slugify "stim   pak" = "stim-pak" ∧
    (createItem (createItem emptyDB (some "Stim Pak") (some "desc") (some "")).db
        (some "stim   pak") (some "desc") (some "")).reply
      = .err 400 "Item already exists" := by
  have h := createItem_key_collision emptyDB "Stim Pak" "stim   pak" "desc" "desc" "" ""
    (by decide) (by decide) (by decide) (by decide) (by decide) (by decide)
  exact ⟨h.1, h.2.1, h.2.2.2.1⟩

/-- Witness for C6 (amended) at concrete inputs on a store holding item and
quest `stimpak`. -/
theorem broadcast_contract_witness :
    (createItem ⟨[], [⟨1, "stimpak", "Stimpak", "d", "i"⟩], [], [],
        [⟨1, "stimpak", "SQ", "d", "i", true⟩]⟩ (some "RadAway") (some "d") none).events.map
      Event.type = ["ITEM_ADDED"] ∧
    (deleteItem ⟨[], [⟨1, "stimpak", "Stimpak", "d", "i"⟩], [], [],
        [⟨1, "stimpak", "SQ", "d", "i", true⟩]⟩ "stimpak").events.map
      Event.type = ["ITEM_DELETED"] ∧
    (createQuest ⟨[], [⟨1, "stimpak", "Stimpak", "d", "i"⟩], [], [],
        [⟨1, "stimpak", "SQ", "d", "i", true⟩]⟩ (some "RadAway") (some "d") none).events.map
      Event.type = ["QUEST_ADDED"] ∧
    (deleteQuest ⟨[], [⟨1, "stimpak", "Stimpak", "d", "i"⟩], [], [],
        [⟨1, "stimpak", "SQ", "d", "i", true⟩]⟩ "stimpak").events.map
      Event.type = ["QUEST_DELETED"] ∧
    (addToStorage ⟨[], [⟨1, "stimpak", "Stimpak", "d", "i"⟩], [], [],
        [⟨1, "stimpak", "SQ", "d", "i", true⟩]⟩ (some "stimpak") (some 1)).events.map
      Event.type = ["PARTY_STORAGE_UPDATED"] ∧
    (removeFromStorage ⟨[], [⟨1, "stimpak", "Stimpak", "d", "i"⟩], [], [],
        [⟨1, "stimpak", "SQ", "d", "i", true⟩]⟩ "stimpak" (some 1)).events.map
      Event.type = ["PARTY_STORAGE_UPDATED"] ∧
    (addToInventory ⟨[], [⟨1, "stimpak", "Stimpak", "d", "i"⟩], [], [],
        [⟨1, "stimpak", "SQ", "d", "i", true⟩]⟩ 1 (some "stimpak") (some 1)).events = [] ∧
    (removeFromInventory ⟨[], [⟨1, "stimpak", "Stimpak", "d", "i"⟩], [], [],
        [⟨1, "stimpak", "SQ", "d", "i", true⟩]⟩ 1 "stimpak" (some 1)).events = [] := by
  have h := broadcast_contract ⟨[], [⟨1, "stimpak", "Stimpak", "d", "i"⟩], [], [],
    [⟨1, "stimpak", "SQ", "d", "i", true⟩]⟩ 1 (some "RadAway") (some "d") none
    "stimpak" (some "stimpak") (some 1)
  exact ⟨h.1 (by decide), h.2.1 (by decide), h.2.2.1 (by decide), h.2.2.2.1 (by decide),
    h.2.2.2.2.1 (by decide), h.2.2.2.2.2.1, h.2.2.2.2.2.2.1, h.2.2.2.2.2.2.2⟩

/-- Witness for C3 (amended) at a concrete all-positive-adds sequence. -/
theorem ledger_invariant_positive_witness :
    quantitiesPositive (runOps emptyDB
      [.addInv 1 (some "stimpak") (some 3), .removeInv 1 "stimpak" (some 1),
       .addStor (some "stimpak") none, .removeStor "stimpak" (some 5)]) := by
  exact ledger_invariant_positive
    [.addInv 1 (some "stimpak") (some 3), .removeInv 1 "stimpak" (some 1),
     .addStor (some "stimpak") none, .removeStor "stimpak" (some 5)] (by decide)

/-- Witness for C9 at a concrete input: removing 1 of 2 stimpaks keeps both
tables at one row. -/
theorem remove_strict_guard_never_deletes_witness :
    (removeFromInventory ⟨[], [], [⟨1, "stimpak", 2⟩], [⟨"stimpak", 3⟩], []⟩
        1 "stimpak" (some 1)).db.userInventory.length = 1 ∧
    (removeFromStorage ⟨[], [], [⟨1, "stimpak", 2⟩], [⟨"stimpak", 3⟩], []⟩
        "stimpak" (some 1)).db.partyStorage.length = 1 := by
  have h := remove_strict_guard_never_deletes
    ⟨[], [], [⟨1, "stimpak", 2⟩], [⟨"stimpak", 3⟩], []⟩ 1 "stimpak" (some 1)
    (by decide) (by decide)
  exact ⟨h.1.1, h.2.1⟩

/-- Witness for C10 at a concrete input: an unseen username gets a token and
user object with `isAdmin = false`. -/
theorem login_autoprovision_not_admin_witness :
    (login (fun s => s) (fun _ _ => false) emptyDB
        (some "vault-dweller") (some "pw")).reply
      = .okLogin ⟨1, "vault-dweller", false⟩ ⟨1, "vault-dweller", false⟩ := by
  have h := login_autoprovision_not_admin (fun s => s) (fun _ _ => false) emptyDB
    "vault-dweller" "pw" (by decide) (by decide) (by decide)
  exact h.2.2

end PipBoy
